import Mathlib

/-!
Verification of the fantasy-VALORANT scoring and league codebase
(`points.py`, `scraper.py`, `database.py`) against its natural-language
specification.

Modelling conventions:
* Python floats are modelled as exact rationals (`ℚ`); decimal literals in the
  source (`0.2`, `0.75`, ...) denote the corresponding exact rational.
* Python's `round(x, n)` (banker's rounding to `n` decimal places) is modelled
  by `pyRound n x`, round-half-to-even on exact rationals.
* `dict` rows become structures; SQL tables become lists of structures, with
  `fetchone` on an unordered `SELECT` modelled as `List.find?` (first match in
  insertion order, which is sqlite's default rowid order).
* Python's stable `list.sort(..., reverse=True)` is modelled by
  `List.mergeSort` with a `≥`-style comparison, which is likewise stable.
-/

namespace FantasyVLR

/-- Python's `round(x, n)`: round to `n` decimal places, ties to even
(banker's rounding), on exact rationals. -/
def pyRound (n : ℕ) (x : ℚ) : ℚ :=
  let s : ℚ := (10 : ℚ) ^ n
  let y : ℚ := x * s
  let f : ℤ := Rat.floor y
  let frac : ℚ := y - f
  let r : ℤ :=
    if frac < 1/2 then f
    else if 1/2 < frac then f + 1
    else if f % 2 = 0 then f else f + 1
  (r : ℚ) / s

/-- One per-player-per-match statistics row, as produced by
`scraper._parse_row_by_class` / stored in `match_player_stats`.
Only the fields consumed by the points engine and the aggregator are kept. -/
structure MatchStatRecord where
  kills : ℚ
  deaths : ℚ
  assists : ℚ
  acs : ℚ
  kast : ℚ
  adr : ℚ
  first_kills : ℚ
  first_deaths : ℚ
  rating : ℚ
  headshot_pct : ℚ
  kd_diff : ℚ
  fk_diff : ℚ
  agent : String
  role : String
  stats_incomplete : Bool
deriving DecidableEq

/-- `points.calculate_player_points`: `deaths = float(...) or 1.0`
(a zero deaths value is replaced by 1). -/
def deathsClamped (p : MatchStatRecord) : ℚ :=
  if p.deaths = 0 then 1 else p.deaths

/-- `points.calculate_player_points`: `kast_dec = kast / 100 if kast > 0 else 0.0`. -/
def kastDec (p : MatchStatRecord) : ℚ :=
  if 0 < p.kast then p.kast / 100 else 0

/-- `points.calculate_player_points`: `ka_d = (kills + assists) / deaths`. -/
def kaD (p : MatchStatRecord) : ℚ :=
  (p.kills + p.assists) / deathsClamped p

/-- `points.calculate_player_points._duelist`:
`acs / 10 + (first_kills + first_deaths) - first_deaths * 0.9`. -/
def duelistBonus (p : MatchStatRecord) : ℚ :=
  p.acs / 10 + (p.first_kills + p.first_deaths) - p.first_deaths * 0.9

/-- `points.calculate_player_points._initiator`: `safe_kad = ka_d if ka_d > 0 else 0.001`. -/
def safeKad (p : MatchStatRecord) : ℚ :=
  if 0 < kaD p then kaD p else 0.001

/-- `points.calculate_player_points._initiator`: `safe_kast = kast_dec if kast_dec > 0 else 0.01`. -/
def safeKast (p : MatchStatRecord) : ℚ :=
  if 0 < kastDec p then kastDec p else 0.01

/-- `points.calculate_player_points._initiator`:
`assists + (assists / safe_kad) / safe_kast`. -/
def initiatorBonus (p : MatchStatRecord) : ℚ :=
  p.assists + (p.assists / safeKad p) / safeKast p

/-- `points.calculate_player_points._controller`:
`assists * 0.75 + (kast / 10) * ka_d`. -/
def controllerBonus (p : MatchStatRecord) : ℚ :=
  p.assists * 0.75 + (p.kast / 10) * kaD p

/-- `points.calculate_player_points._sentinel`: `acs / 10 + (adr / 100) / 1.5`. -/
def sentinelBonus (p : MatchStatRecord) : ℚ :=
  p.acs / 10 + (p.adr / 100) / 1.5

/-- `points.calculate_player_points`: the unrounded base-points sum
`kills*4 + deaths*-6 + assists*1 + acs*(kast_dec/5) + fk*2 + fd*-4 + adr*0.2`. -/
def basePointsRaw (p : MatchStatRecord) : ℚ :=
  p.kills * 4 + deathsClamped p * (-6) + p.assists * 1 + p.acs * (kastDec p / 5)
    + p.first_kills * 2 + p.first_deaths * (-4) + p.adr * 0.2

/-- `points.calculate_player_points`: `base = round(base, 4)`. -/
def basePoints (p : MatchStatRecord) : ℚ :=
  pyRound 4 (basePointsRaw p)

/-- `points.calculate_player_points`: `r = role or p.get("role", "flex")`.
A `None` or empty-string `role` argument falls back to the record's own role
field (Python truthiness of strings). -/
def resolveRole (roleArg : Option String) (p : MatchStatRecord) : String :=
  match roleArg with
  | some s => if s = "" then p.role else s
  | none => p.role

/-- `points.calculate_player_points(p, role) -> (base, role_bonus, total)`,
with `base = round(base, 4)`, `role_bonus = round(role_bonus, 4)`,
`total = round(total, 2)`. -/
def calculate_player_points (p : MatchStatRecord) (roleArg : Option String) :
    ℚ × ℚ × ℚ :=
  let r := resolveRole roleArg p
  let base := basePoints p
  if r = "duelist" then
    (base, pyRound 4 (duelistBonus p), pyRound 2 (base + duelistBonus p))
  else if r = "initiator" then
    (base, pyRound 4 (initiatorBonus p), pyRound 2 (base + initiatorBonus p))
  else if r = "controller" then
    (base, pyRound 4 (controllerBonus p), pyRound 2 (base + controllerBonus p))
  else if r = "sentinel" then
    (base, pyRound 4 (sentinelBonus p), pyRound 2 (base + sentinelBonus p))
  else if r = "flex" then
    let allBonuses := duelistBonus p + initiatorBonus p + controllerBonus p + sentinelBonus p
    let ratingBonus := p.rating * 10 * (kastDec p - 0.7)
    let total := base + allBonuses / 4 + ratingBonus
    (base, pyRound 4 (total - base), pyRound 2 total)
  else
    (base, pyRound 4 0, pyRound 2 base)

/-! ### Spec-side formulas for the points engine (C1)

These definitions transliterate the spec's §4.4 formula table (and claim C1's
wording); they are compared against the source-derived definitions above. -/

/-- Spec §4.4: `kastFraction = kast/100` (0 if kast ≤ 0). -/
def spec_kastFraction (p : MatchStatRecord) : ℚ :=
  if p.kast ≤ 0 then 0 else p.kast / 100

/-- Spec §4.4: `kad = (kills+assists)/deaths` (on records with `deaths ≥ 1`). -/
def spec_kad (p : MatchStatRecord) : ℚ :=
  (p.kills + p.assists) / p.deaths

/-- Spec §4.4 base formula:
`kills*4 + deaths*(-6) + assists*1 + acs*(kastFraction/5) + firstKills*2 + firstDeaths*(-4) + adr*0.2`. -/
def spec_base (p : MatchStatRecord) : ℚ :=
  p.kills * 4 + p.deaths * (-6) + p.assists * 1 + p.acs * (spec_kastFraction p / 5)
    + p.first_kills * 2 + p.first_deaths * (-4) + p.adr * 0.2

/-- Spec §4.4 duelist bonus: `acs/10 + firstKills + 0.1*firstDeaths`. -/
def spec_duelistBonus (p : MatchStatRecord) : ℚ :=
  p.acs / 10 + p.first_kills + 0.1 * p.first_deaths

/-- Spec §4.4: `kad_safe` substitutes 0.001 when kad ≤ 0. -/
def spec_kadSafe (p : MatchStatRecord) : ℚ :=
  if spec_kad p ≤ 0 then 0.001 else spec_kad p

/-- Spec §4.4: `kastFraction_safe` substitutes 0.01 when kastFraction ≤ 0. -/
def spec_kastFractionSafe (p : MatchStatRecord) : ℚ :=
  if spec_kastFraction p ≤ 0 then 0.01 else spec_kastFraction p

/-- Spec §4.4 initiator bonus: `assists + (assists/kad_safe)/kastFraction_safe`. -/
def spec_initiatorBonus (p : MatchStatRecord) : ℚ :=
  p.assists + (p.assists / spec_kadSafe p) / spec_kastFractionSafe p

/-- Spec §4.4 controller bonus: `assists*0.75 + (kast/10)*kad`. -/
def spec_controllerBonus (p : MatchStatRecord) : ℚ :=
  p.assists * 0.75 + (p.kast / 10) * spec_kad p

/-- Spec §4.4 sentinel bonus: `acs/10 + (adr/100)/1.5`. -/
def spec_sentinelBonus (p : MatchStatRecord) : ℚ :=
  p.acs / 10 + (p.adr / 100) / 1.5

/-- Spec §4.4 flex total:
`base + (duelistBonus+initiatorBonus+controllerBonus+sentinelBonus)/4 + rating*10*(kastFraction-0.7)`,
with `base` the 4-decimal-rounded base points. -/
def spec_flexTotal (p : MatchStatRecord) : ℚ :=
  pyRound 4 (spec_base p)
    + (spec_duelistBonus p + spec_initiatorBonus p + spec_controllerBonus p
        + spec_sentinelBonus p) / 4
    + p.rating * 10 * (spec_kastFraction p - 0.7)

/-- Spec §4.4 role-bonus table; flex uses `roleBonus = total - base`,
unknown roles get 0. -/
def spec_roleBonus (p : MatchStatRecord) (r : String) : ℚ :=
  if r = "duelist" then spec_duelistBonus p
  else if r = "initiator" then spec_initiatorBonus p
  else if r = "controller" then spec_controllerBonus p
  else if r = "sentinel" then spec_sentinelBonus p
  else if r = "flex" then spec_flexTotal p - pyRound 4 (spec_base p)
  else 0

/-- Spec §4.4 total: `base + roleBonus`, except flex which is `spec_flexTotal`;
unknown roles get `total = base`. -/
def spec_total (p : MatchStatRecord) (r : String) : ℚ :=
  if r = "flex" then spec_flexTotal p
  else pyRound 4 (spec_base p) + spec_roleBonus p r

section PointsEngineLemmas

variable {p : MatchStatRecord}

lemma deathsClamped_of_ne (hd : p.deaths ≠ 0) : deathsClamped p = p.deaths := by
  simp [deathsClamped, hd]

lemma kastDec_eq_spec : kastDec p = spec_kastFraction p := by
  unfold kastDec spec_kastFraction
  rcases lt_or_le 0 p.kast with h | h
  · rw [if_pos h, if_neg (not_le.mpr h)]
  · rw [if_neg (not_lt.mpr h), if_pos h]

lemma kaD_eq_spec (hd : p.deaths ≠ 0) : kaD p = spec_kad p := by
  unfold kaD spec_kad
  rw [deathsClamped_of_ne hd]

lemma basePointsRaw_eq_spec (hd : p.deaths ≠ 0) : basePointsRaw p = spec_base p := by
  unfold basePointsRaw spec_base
  rw [deathsClamped_of_ne hd, kastDec_eq_spec]

lemma duelistBonus_eq_spec : duelistBonus p = spec_duelistBonus p := by
  unfold duelistBonus spec_duelistBonus
  ring

lemma safeKad_eq_spec (hd : p.deaths ≠ 0) : safeKad p = spec_kadSafe p := by
  unfold safeKad spec_kadSafe
  rw [kaD_eq_spec hd]
  rcases lt_or_le 0 (spec_kad p) with h | h
  · rw [if_pos h, if_neg (not_le.mpr h)]
  · rw [if_neg (not_lt.mpr h), if_pos h]

lemma safeKast_eq_spec : safeKast p = spec_kastFractionSafe p := by
  unfold safeKast spec_kastFractionSafe
  rw [kastDec_eq_spec]
  rcases lt_or_le 0 (spec_kastFraction p) with h | h
  · rw [if_pos h, if_neg (not_le.mpr h)]
  · rw [if_neg (not_lt.mpr h), if_pos h]

lemma initiatorBonus_eq_spec (hd : p.deaths ≠ 0) :
    initiatorBonus p = spec_initiatorBonus p := by
  unfold initiatorBonus spec_initiatorBonus
  rw [safeKad_eq_spec hd, safeKast_eq_spec]

lemma controllerBonus_eq_spec (hd : p.deaths ≠ 0) :
    controllerBonus p = spec_controllerBonus p := by
  unfold controllerBonus spec_controllerBonus
  rw [kaD_eq_spec hd]

lemma sentinelBonus_eq_spec : sentinelBonus p = spec_sentinelBonus p := rfl

end PointsEngineLemmas

/-- **C1.** For every stat record with a nonzero deaths value (the extractor
stores `max(deaths, 1)`, so every real record qualifies) and every role
argument, `calculate_player_points` returns exactly the spec's base formula
(rounded to 4 decimals, independent of the role), the spec's role-bonus table
(rounded to 4 decimals; flex blends the four bonuses plus the rating term and
takes `roleBonus = total - base`; unknown roles get 0), and the spec's total
(rounded to 2 decimals). -/
theorem points_engine_matches_spec (p : MatchStatRecord) (roleArg : Option String)
    (hd : p.deaths ≠ 0) :
    calculate_player_points p roleArg =
      (pyRound 4 (spec_base p),
       pyRound 4 (spec_roleBonus p (resolveRole roleArg p)),
       pyRound 2 (spec_total p (resolveRole roleArg p))) := by
  have hbase : basePoints p = pyRound 4 (spec_base p) := by
    unfold basePoints
    rw [basePointsRaw_eq_spec hd]
  have hflex : basePoints p
        + (duelistBonus p + initiatorBonus p + controllerBonus p + sentinelBonus p) / 4
        + p.rating * 10 * (kastDec p - 0.7) = spec_flexTotal p := by
    unfold spec_flexTotal
    rw [duelistBonus_eq_spec, initiatorBonus_eq_spec hd, controllerBonus_eq_spec hd,
      sentinelBonus_eq_spec, kastDec_eq_spec, hbase]
  by_cases h1 : resolveRole roleArg p = "duelist"
  · simp only [calculate_player_points, spec_total, spec_roleBonus, h1, String.reduceEq, reduceIte, ite_false, ite_true]
    rw [hbase, duelistBonus_eq_spec]
  by_cases h2 : resolveRole roleArg p = "initiator"
  · simp only [calculate_player_points, spec_total, spec_roleBonus, h2, String.reduceEq, reduceIte, ite_false, ite_true]
    rw [hbase, initiatorBonus_eq_spec hd]
  by_cases h3 : resolveRole roleArg p = "controller"
  · simp only [calculate_player_points, spec_total, spec_roleBonus, h3, String.reduceEq, reduceIte, ite_false, ite_true]
    rw [hbase, controllerBonus_eq_spec hd]
  by_cases h4 : resolveRole roleArg p = "sentinel"
  · simp only [calculate_player_points, spec_total, spec_roleBonus, h4, String.reduceEq, reduceIte, ite_false, ite_true]
    rw [hbase, sentinelBonus_eq_spec]
  by_cases h5 : resolveRole roleArg p = "flex"
  · simp only [calculate_player_points, spec_total, spec_roleBonus, h5, String.reduceEq, reduceIte, ite_false, ite_true]
    rw [hbase, ← hflex, hbase]
  · simp only [calculate_player_points, spec_total, spec_roleBonus, h1, h2, h3, h4, h5,
      String.reduceEq, reduceIte, ite_false, ite_true, hbase, add_zero]

/-- A concrete, complete (not incomplete-flagged) stat line used by witnesses. -/
def wRec : MatchStatRecord :=
  { kills := 20, deaths := 10, assists := 5, acs := 250, kast := 70, adr := 150
  , first_kills := 3, first_deaths := 2, rating := 1.2, headshot_pct := 25
  , kd_diff := 10, fk_diff := 1, agent := "jett", role := "flex"
  , stats_incomplete := false }

/-- Witness for `points_engine_matches_spec`: the hypothesis holds and the
theorem applies at a concrete record and the flex role. -/
theorem points_engine_matches_spec_witness :
    wRec.deaths ≠ 0 ∧
      calculate_player_points wRec (some "flex") =
        (pyRound 4 (spec_base wRec),
         pyRound 4 (spec_roleBonus wRec (resolveRole (some "flex") wRec)),
         pyRound 2 (spec_total wRec (resolveRole (some "flex") wRec))) :=
  ⟨by norm_num [wRec], points_engine_matches_spec wRec (some "flex") (by norm_num [wRec])⟩

end FantasyVLR

namespace FantasyVLR

/-- **C7.** `calculate_player_points` is total (it is a Lean function on ℚ) and
every denominator it divides by is nonzero: the clamped deaths value is never
0, the KAD and KAST denominators of the initiator bonus are replaced by the
positive substitutes 0.001 and 0.01 whenever they are not positive, and a
record with `deaths = 0` is scored exactly as if `deaths = 1` (the clamp
happens before any ratio is computed). -/
theorem division_guards (p : MatchStatRecord) (roleArg : Option String) :
    deathsClamped p ≠ 0 ∧ 0 < safeKad p ∧ 0 < safeKast p ∧
      (kaD p ≤ 0 → safeKad p = 0.001) ∧ (kastDec p ≤ 0 → safeKast p = 0.01) ∧
      deathsClamped { p with deaths := 0 } = 1 ∧
      calculate_player_points { p with deaths := 0 } roleArg
        = calculate_player_points { p with deaths := 1 } roleArg := by
  refine ⟨?_, ?_, ?_, ?_, ?_, ?_, ?_⟩
  · unfold deathsClamped
    split_ifs with h
    · norm_num
    · exact h
  · unfold safeKad
    split_ifs with h
    · exact h
    · norm_num
  · unfold safeKast
    split_ifs with h
    · exact h
    · norm_num
  · intro hle
    unfold safeKad
    split_ifs with h
    · exact absurd h (not_lt.mpr hle)
    · rfl
  · intro hle
    unfold safeKast
    split_ifs with h
    · exact absurd h (not_lt.mpr hle)
    · rfl
  · simp [deathsClamped]
  · simp [calculate_player_points, basePoints, basePointsRaw, duelistBonus,
      initiatorBonus, controllerBonus, sentinelBonus, safeKad, safeKast, kaD,
      kastDec, deathsClamped, resolveRole]

/-- An all-zero stat record (the degenerate case the division guards exist for). -/
def wZero : MatchStatRecord :=
  { kills := 0, deaths := 0, assists := 0, acs := 0, kast := 0, adr := 0
  , first_kills := 0, first_deaths := 0, rating := 0, headshot_pct := 0
  , kd_diff := 0, fk_diff := 0, agent := "", role := "flex"
  , stats_incomplete := false }

/-- Witness for `division_guards`: at the all-zero record both substitute
branches actually fire. -/
theorem division_guards_witness :
    (kaD wZero ≤ 0 ∧ safeKad wZero = 0.001) ∧
      (kastDec wZero ≤ 0 ∧ safeKast wZero = 0.01) :=
  ⟨⟨by norm_num [kaD, deathsClamped, wZero],
    (division_guards wZero none).2.2.2.1 (by norm_num [kaD, deathsClamped, wZero])⟩,
   ⟨by norm_num [kastDec, wZero],
    (division_guards wZero none).2.2.2.2.1 (by norm_num [kastDec, wZero])⟩⟩

end FantasyVLR

namespace FantasyVLR

/-- Aggregated leaderboard row (`scraper.aggregate_player_stats` output).
The display-only derived columns (`kd_ratio`, `fk_fd_ratio`, modal agent)
are omitted from the model. -/
structure AggRow where
  role : String
  matches_played : ℕ
  kills : ℚ
  deaths : ℚ
  assists : ℚ
  first_kills : ℚ
  first_deaths : ℚ
  kd_diff : ℚ
  fk_diff : ℚ
  rating : ℚ
  acs : ℚ
  kast : ℚ
  adr : ℚ
  headshot_pct : ℚ
  base_points : ℚ
  role_points : ℚ
  fantasy_points : ℚ
  has_incomplete_matches : Bool
deriving DecidableEq

/-- The points loop of `scraper.aggregate_player_stats`: accumulate
`(total_base, total_role, total_pts)` over the player's match rows in order,
skipping every row flagged `stats_incomplete`; each row is scored through
`calculate_player_points` with the bucket's role (`pdata` carries the first
row's role and the row's own stats). -/
def pointsLoop (role0 : String) (rows : List MatchStatRecord) : ℚ × ℚ × ℚ :=
  rows.foldl
    (fun acc r =>
      if r.stats_incomplete then acc
      else
        let t := calculate_player_points { r with role := role0 } none
        (acc.1 + t.1, acc.2.1 + t.2.1, acc.2.2 + t.2.2))
    (0, 0, 0)

/-- `scraper.aggregate_player_stats`, for one player's bucket: `r0 :: rest` is
the nonempty list of that player's match rows in insertion order (`base =
rows[0]`, `n = len(rows)`). Display stats are summed (counts) or arithmetically
averaged (rates) over all rows; points are computed per match and summed via
`pointsLoop`, then rounded (base/role to 4 decimals, total to 2). -/
def aggregate_player_stats (r0 : MatchStatRecord) (rest : List MatchStatRecord) : AggRow :=
  let rows := r0 :: rest
  let n : ℚ := rows.length
  let role := r0.role
  let pts := pointsLoop role rows
  { role := role
  , matches_played := rows.length
  , kills := (rows.map MatchStatRecord.kills).sum
  , deaths := (rows.map MatchStatRecord.deaths).sum
  , assists := (rows.map MatchStatRecord.assists).sum
  , first_kills := (rows.map MatchStatRecord.first_kills).sum
  , first_deaths := (rows.map MatchStatRecord.first_deaths).sum
  , kd_diff := (rows.map MatchStatRecord.kd_diff).sum
  , fk_diff := (rows.map MatchStatRecord.fk_diff).sum
  , rating := pyRound 3 ((rows.map MatchStatRecord.rating).sum / n)
  , acs := pyRound 2 ((rows.map MatchStatRecord.acs).sum / n)
  , kast := pyRound 2 ((rows.map MatchStatRecord.kast).sum / n)
  , adr := pyRound 2 ((rows.map MatchStatRecord.adr).sum / n)
  , headshot_pct := pyRound 2 ((rows.map MatchStatRecord.headshot_pct).sum / n)
  , base_points := pyRound 4 pts.1
  , role_points := pyRound 4 pts.2.1
  , fantasy_points := pyRound 2 pts.2.2
  , has_incomplete_matches := rows.any MatchStatRecord.stats_incomplete }

lemma pointsLoop_go (role0 : String) (rows : List MatchStatRecord) :
    ∀ a b c : ℚ,
      rows.foldl
        (fun acc r =>
          if r.stats_incomplete then acc
          else
            let t := calculate_player_points { r with role := role0 } none
            (acc.1 + t.1, acc.2.1 + t.2.1, acc.2.2 + t.2.2))
        (a, b, c)
      = (a + ((rows.filter (fun r => !r.stats_incomplete)).map
            (fun r => (calculate_player_points { r with role := role0 } none).1)).sum,
         b + ((rows.filter (fun r => !r.stats_incomplete)).map
            (fun r => (calculate_player_points { r with role := role0 } none).2.1)).sum,
         c + ((rows.filter (fun r => !r.stats_incomplete)).map
            (fun r => (calculate_player_points { r with role := role0 } none).2.2)).sum) := by
  induction rows with
  | nil => intro a b c; simp
  | cons r rs ih =>
    intro a b c
    rcases hr : r.stats_incomplete with _ | _
    · simp only [List.foldl_cons, hr, Bool.false_eq_true, if_false, List.filter_cons,
        Bool.not_false, if_true, List.map_cons, List.sum_cons]
      rw [ih]
      refine congrArg₂ Prod.mk ?_ (congrArg₂ Prod.mk ?_ ?_) <;> ring
    · simp only [List.foldl_cons, hr, if_true, List.filter_cons, Bool.not_true,
        Bool.false_eq_true, if_false]
      exact ih a b c

lemma pointsLoop_eq (role0 : String) (rows : List MatchStatRecord) :
    pointsLoop role0 rows
      = (((rows.filter (fun r => !r.stats_incomplete)).map
            (fun r => (calculate_player_points { r with role := role0 } none).1)).sum,
         ((rows.filter (fun r => !r.stats_incomplete)).map
            (fun r => (calculate_player_points { r with role := role0 } none).2.1)).sum,
         ((rows.filter (fun r => !r.stats_incomplete)).map
            (fun r => (calculate_player_points { r with role := role0 } none).2.2)).sum) := by
  unfold pointsLoop
  rw [pointsLoop_go]
  simp

/-- **C2.** For a player bucket containing at least one incomplete-flagged
match row, the aggregated output's point columns are the rounded sums of
per-match points over only the rows not flagged incomplete, while
`matches_played` counts all rows and every display stat (kill/death/assist/
first-kill/first-death sums and rating/ACS/KAST/ADR/headshot averages) is
computed over all rows including the incomplete ones. -/
theorem aggregator_skips_incomplete_only_for_points
    (r0 : MatchStatRecord) (rest : List MatchStatRecord)
    (hinc : ∃ r ∈ r0 :: rest, r.stats_incomplete = true) :
    (aggregate_player_stats r0 rest).base_points
        = pyRound 4 ((((r0 :: rest).filter (fun r => !r.stats_incomplete)).map
            (fun r => (calculate_player_points { r with role := r0.role } none).1)).sum)
    ∧ (aggregate_player_stats r0 rest).role_points
        = pyRound 4 ((((r0 :: rest).filter (fun r => !r.stats_incomplete)).map
            (fun r => (calculate_player_points { r with role := r0.role } none).2.1)).sum)
    ∧ (aggregate_player_stats r0 rest).fantasy_points
        = pyRound 2 ((((r0 :: rest).filter (fun r => !r.stats_incomplete)).map
            (fun r => (calculate_player_points { r with role := r0.role } none).2.2)).sum)
    ∧ (aggregate_player_stats r0 rest).matches_played = (r0 :: rest).length
    ∧ (aggregate_player_stats r0 rest).kills = ((r0 :: rest).map MatchStatRecord.kills).sum
    ∧ (aggregate_player_stats r0 rest).deaths = ((r0 :: rest).map MatchStatRecord.deaths).sum
    ∧ (aggregate_player_stats r0 rest).assists = ((r0 :: rest).map MatchStatRecord.assists).sum
    ∧ (aggregate_player_stats r0 rest).first_kills
        = ((r0 :: rest).map MatchStatRecord.first_kills).sum
    ∧ (aggregate_player_stats r0 rest).first_deaths
        = ((r0 :: rest).map MatchStatRecord.first_deaths).sum
    ∧ (aggregate_player_stats r0 rest).rating
        = pyRound 3 (((r0 :: rest).map MatchStatRecord.rating).sum / (r0 :: rest).length)
    ∧ (aggregate_player_stats r0 rest).acs
        = pyRound 2 (((r0 :: rest).map MatchStatRecord.acs).sum / (r0 :: rest).length)
    ∧ (aggregate_player_stats r0 rest).kast
        = pyRound 2 (((r0 :: rest).map MatchStatRecord.kast).sum / (r0 :: rest).length)
    ∧ (aggregate_player_stats r0 rest).adr
        = pyRound 2 (((r0 :: rest).map MatchStatRecord.adr).sum / (r0 :: rest).length)
    ∧ (aggregate_player_stats r0 rest).headshot_pct
        = pyRound 2 (((r0 :: rest).map MatchStatRecord.headshot_pct).sum / (r0 :: rest).length)
    ∧ (aggregate_player_stats r0 rest).has_incomplete_matches = true := by
  have hloop := pointsLoop_eq r0.role (r0 :: rest)
  refine ⟨?_, ?_, ?_, rfl, rfl, rfl, rfl, rfl, rfl, rfl, rfl, rfl, rfl, rfl, ?_⟩
  · show pyRound 4 (pointsLoop r0.role (r0 :: rest)).1 = _
    rw [hloop]
  · show pyRound 4 (pointsLoop r0.role (r0 :: rest)).2.1 = _
    rw [hloop]
  · show pyRound 2 (pointsLoop r0.role (r0 :: rest)).2.2 = _
    rw [hloop]
  · show ((r0 :: rest).any MatchStatRecord.stats_incomplete) = true
    rcases hinc with ⟨r, hmem, hr⟩
    exact List.any_eq_true.mpr ⟨r, hmem, hr⟩

end FantasyVLR

namespace FantasyVLR

/-- A second match row for the same player, flagged incomplete (KAST missing). -/
def wInc : MatchStatRecord :=
  { kills := 15, deaths := 12, assists := 3, acs := 200, kast := 0, adr := 120
  , first_kills := 2, first_deaths := 3, rating := 1.0, headshot_pct := 20
  , kd_diff := 3, fk_diff := -1, agent := "jett", role := "flex"
  , stats_incomplete := true }

lemma wRec_flex_value : calculate_player_points wRec none = (88, 52067/2500, 10883/100) := by
  norm_num +decide [wRec, calculate_player_points, resolveRole, basePoints, basePointsRaw,
    deathsClamped, kastDec, kaD, duelistBonus, initiatorBonus, controllerBonus,
    sentinelBonus, safeKad, safeKast, pyRound, Rat.floor_def']

/-- Witness for `aggregator_skips_incomplete_only_for_points`: a player with 2
matches, one incomplete, has `fantasy_points` equal to the score of only the
complete match, while `matches_played` counts both. -/
theorem aggregator_skips_incomplete_only_for_points_witness :
    (∃ r ∈ wRec :: [wInc], r.stats_incomplete = true) ∧
      (aggregate_player_stats wRec [wInc]).fantasy_points
          = (calculate_player_points wRec none).2.2 ∧
      (aggregate_player_stats wRec [wInc]).matches_played = 2 := by
  have h := aggregator_skips_incomplete_only_for_points wRec [wInc]
    ⟨wInc, by simp, rfl⟩
  refine ⟨⟨wInc, by simp, rfl⟩, ?_, h.2.2.2.1⟩
  refine h.2.2.1.trans ?_
  have hfil : (wRec :: [wInc]).filter (fun r => !r.stats_incomplete) = [wRec] := rfl
  rw [hfil]
  simp only [List.map_cons, List.map_nil, List.sum_cons, List.sum_nil, add_zero]
  have hup : ({ wRec with role := wRec.role } : MatchStatRecord) = wRec := rfl
  rw [hup, wRec_flex_value]
  norm_num [pyRound, Rat.floor_def']

end FantasyVLR

namespace FantasyVLR

/-- The hypothetical "sum raw stats first, then score once" aggregate of two
match rows, built with the aggregator's display-stat policy (counts summed,
rate stats averaged over the 2 matches); the spec's §4.5 mandates that the
aggregator must NOT score this. Identity fields come from the first row. -/
def combinedStats (r1 r2 : MatchStatRecord) : MatchStatRecord :=
  { kills := r1.kills + r2.kills
  , deaths := r1.deaths + r2.deaths
  , assists := r1.assists + r2.assists
  , acs := (r1.acs + r2.acs) / 2
  , kast := (r1.kast + r2.kast) / 2
  , adr := (r1.adr + r2.adr) / 2
  , first_kills := r1.first_kills + r2.first_kills
  , first_deaths := r1.first_deaths + r2.first_deaths
  , rating := (r1.rating + r2.rating) / 2
  , headshot_pct := (r1.headshot_pct + r2.headshot_pct) / 2
  , kd_diff := r1.kd_diff + r2.kd_diff
  , fk_diff := r1.fk_diff + r2.fk_diff
  , agent := r1.agent
  , role := r1.role
  , stats_incomplete := false }

/-- A second complete stat line for the same player, with a different ACS/KAST
combination than `wRec`. -/
def wRec2 : MatchStatRecord :=
  { kills := 10, deaths := 12, assists := 8, acs := 150, kast := 60, adr := 100
  , first_kills := 1, first_deaths := 2, rating := 0.9, headshot_pct := 15
  , kd_diff := -2, fk_diff := -1, agent := "jett", role := "flex"
  , stats_incomplete := false }

lemma wRec2_flex_value :
    calculate_player_points wRec2 (some "flex") = (8, 150389/10000, 576/25) := by
  norm_num +decide [wRec2, calculate_player_points, resolveRole, basePoints, basePointsRaw,
    deathsClamped, kastDec, kaD, duelistBonus, initiatorBonus, controllerBonus,
    sentinelBonus, safeKad, safeKast, pyRound, Rat.floor_def']

lemma combined_flex_value :
    calculate_player_points (combinedStats wRec wRec2) (some "flex")
      = (44, 222051/10000, 6621/100) := by
  have hc : combinedStats wRec wRec2 =
      { kills := 30, deaths := 22, assists := 13, acs := 200, kast := 65, adr := 125
      , first_kills := 4, first_deaths := 4, rating := 1.05, headshot_pct := 20
      , kd_diff := 8, fk_diff := 0, agent := "jett", role := "flex"
      , stats_incomplete := false } := by
    norm_num [combinedStats, wRec, wRec2]
  rw [hc]
  norm_num +decide [calculate_player_points, resolveRole, basePoints, basePointsRaw,
    deathsClamped, kastDec, kaD, duelistBonus, initiatorBonus, controllerBonus,
    sentinelBonus, safeKad, safeKast, pyRound, Rat.floor_def']

lemma wRec_flex_value_some :
    calculate_player_points wRec (some "flex") = (88, 52067/2500, 10883/100) := by
  have : resolveRole (some "flex") wRec = resolveRole none wRec := rfl
  have h : calculate_player_points wRec (some "flex") = calculate_player_points wRec none := by
    unfold calculate_player_points
    rw [this]
  rw [h, wRec_flex_value]

/-- **C3.** There are two complete per-match records for one player, with
different ACS/KAST combinations, and a role, such that the sum of the two
per-match totals from `calculate_player_points` differs from the single total
obtained by scoring the summed/averaged stats of the two matches once:
per-match-then-sum is not sum-then-score. -/
theorem per_match_then_sum_ne_sum_then_score :
    ∃ (r1 r2 : MatchStatRecord) (role : String),
      r1.stats_incomplete = false ∧ r2.stats_incomplete = false ∧
      (r1.acs, r1.kast) ≠ (r2.acs, r2.kast) ∧
      (calculate_player_points r1 (some role)).2.2
          + (calculate_player_points r2 (some role)).2.2
        ≠ (calculate_player_points (combinedStats r1 r2) (some role)).2.2 := by
  refine ⟨wRec, wRec2, "flex", rfl, rfl, by norm_num [wRec, wRec2], ?_⟩
  rw [wRec_flex_value_some, wRec2_flex_value, combined_flex_value]
  norm_num

end FantasyVLR

namespace FantasyVLR

/-- `scraper._parse_row_by_class`:
`kast = kast_raw * 100 if 0 < kast_raw <= 1.5 else kast_raw`. -/
def normalizeKast (raw : ℚ) : ℚ :=
  if 0 < raw ∧ raw ≤ 1.5 then raw * 100 else raw

/-- Spec §4.2 wording: if the raw value is in (0, 1.5], treat it as a fraction
and multiply by 100, else keep as-is. -/
def spec_normalizeKast (raw : ℚ) : ℚ :=
  if 0 < raw ∧ raw ≤ 1.5 then raw * 100 else raw

/-- **C6.** The stored KAST is the raw value times 100 exactly when the raw
value is strictly greater than 0 and at most 1.5, and the raw value unchanged
otherwise; in particular 0.8 ↦ 80, 80 ↦ 80, 1.4 ↦ 140, 1.5 ↦ 150, and any raw
value strictly above 1.5 is kept as-is. -/
theorem kast_normalization_threshold (raw : ℚ) :
    normalizeKast raw = spec_normalizeKast raw
    ∧ (0 < raw → raw ≤ 1.5 → normalizeKast raw = raw * 100)
    ∧ (raw ≤ 0 → normalizeKast raw = raw)
    ∧ (1.5 < raw → normalizeKast raw = raw)
    ∧ normalizeKast 0.8 = 80
    ∧ normalizeKast 80 = 80
    ∧ normalizeKast 1.4 = 140
    ∧ normalizeKast 1.5 = 150
    ∧ normalizeKast 1.6 = 1.6 := by
  refine ⟨rfl, ?_, ?_, ?_, ?_, ?_, ?_, ?_, ?_⟩
  · intro h1 h2
    unfold normalizeKast
    rw [if_pos ⟨h1, h2⟩]
  · intro h
    unfold normalizeKast
    rw [if_neg]
    rintro ⟨h1, -⟩
    exact absurd h (not_le.mpr h1)
  · intro h
    unfold normalizeKast
    rw [if_neg]
    rintro ⟨-, h2⟩
    exact absurd h (not_lt.mpr h2)
  · norm_num [normalizeKast]
  · norm_num [normalizeKast]
  · norm_num [normalizeKast]
  · norm_num [normalizeKast]
  · norm_num [normalizeKast]

/-- Witness for `kast_normalization_threshold`: the conditional conjuncts
fire at raw values 0.8 (fraction), −3 (non-positive) and 2 (above threshold). -/
theorem kast_normalization_threshold_witness :
    normalizeKast 0.8 = 0.8 * 100 ∧ normalizeKast (-3) = -3 ∧ normalizeKast 2 = 2 :=
  ⟨(kast_normalization_threshold 0.8).2.1 (by norm_num) (by norm_num),
   (kast_normalization_threshold (-3)).2.2.1 (by norm_num),
   (kast_normalization_threshold 2).2.2.2.1 (by norm_num)⟩

end FantasyVLR

namespace FantasyVLR

/-- One roster player's point-relevant columns as read by
`database.get_phase_standings` (joined `players` + `fantasy_roster` row). -/
structure RosterPlayer where
  fantasy_points : ℚ
  manual_pts : ℚ
  is_star : Bool
deriving DecidableEq

/-- One `match_results` row of the followed team. -/
structure MatchResultRow where
  result : String
  format : String
deriving DecidableEq

/-- A fantasy team as read by the standings computations: its id, its roster
for each phase (the rows `get_roster(team, phase=...)` returns), the followed
team's match results (`none` when no team is followed), and the team-level
manual point adjustments. -/
structure FantasyTeam where
  id : ℕ
  rosters : String → List RosterPlayer
  followed : Option (List MatchResultRow)
  adjustments : List ℚ

/-- `database.calculate_team_follow_points`: 0 without a followed team, else
fold over its match results adding +100 (bo3 win), +75 (other-format win),
−75 (bo3 non-win), −50 (other-format non-win). -/
def calculate_team_follow_points (followed : Option (List MatchResultRow)) : ℚ :=
  match followed with
  | none => 0
  | some results =>
    results.foldl
      (fun pts r =>
        if r.result = "win" then pts + (if r.format = "bo3" then 100 else 75)
        else pts + (if r.format = "bo3" then -75 else -50))
      0

/-- `database.get_total_adjustments`: `COALESCE(SUM(amount), 0)`. -/
def get_total_adjustments (adjs : List ℚ) : ℚ := adjs.sum

/-- The roster loop of `database.get_phase_standings`: accumulates
`(player_pts, star_bonus)`; every entry adds `fantasy_points + manual_pts`
to `player_pts`, starred entries also add half of that to `star_bonus`. -/
def rosterLoop (roster : List RosterPlayer) : ℚ × ℚ :=
  roster.foldl
    (fun acc p =>
      let base_pts := p.fantasy_points + p.manual_pts
      (acc.1 + base_pts, if p.is_star then acc.2 + base_pts * 0.5 else acc.2))
    (0, 0)

/-- One output row of `database.get_phase_standings`. -/
structure StandingRow where
  id : ℕ
  player_pts : ℚ
  star_bonus : ℚ
  follow_pts : ℚ
  adj_pts : ℚ
  total_points : ℚ
deriving DecidableEq

/-- The body of the team loop in `database.get_phase_standings`. -/
def phaseRow (phase : String) (t : FantasyTeam) : StandingRow :=
  let roster := t.rosters phase
  let pp := (rosterLoop roster).1
  let sb := (rosterLoop roster).2
  let fp := calculate_team_follow_points t.followed
  let ap := get_total_adjustments t.adjustments
  { id := t.id
  , player_pts := pyRound 2 pp
  , star_bonus := pyRound 2 sb
  , follow_pts := pyRound 2 fp
  , adj_pts := pyRound 2 ap
  , total_points := pyRound 2 (pp + sb + fp + ap) }

/-- The comparison used to model
`standings.sort(key=lambda x: x["total_points"], reverse=True)`:
a stable descending sort. -/
def standingsDescLE (a b : StandingRow) : Bool :=
  decide (b.total_points ≤ a.total_points)

/-- `database.get_phase_standings(league_id, phase)` over the league's teams. -/
def get_phase_standings (teams : List FantasyTeam) (phase : String) :
    List StandingRow :=
  (teams.map (phaseRow phase)).mergeSort standingsDescLE

/-- One output row of `database.get_overall_standings`. -/
structure OverallRow where
  id : ℕ
  swiss_pts : ℚ
  playoffs_pts : ℚ
  total_points : ℚ
deriving DecidableEq

/-- Descending stable comparison for overall rows. -/
def overallDescLE (a b : OverallRow) : Bool :=
  decide (b.total_points ≤ a.total_points)

/-- `database.get_overall_standings`: run the two phase computations, look up
each team's phase totals by team id (Python dict-by-id, modelled as `find?`,
defaulting to 0 when absent), recombine as `round(swiss + playoffs, 2)`, and
sort descending. -/
def get_overall_standings (teams : List FantasyTeam) : List OverallRow :=
  let swiss := get_phase_standings teams "swiss"
  let playoffs := get_phase_standings teams "playoffs"
  (teams.map (fun t =>
    let s := ((swiss.find? (fun r => r.id == t.id)).map StandingRow.total_points).getD 0
    let p := ((playoffs.find? (fun r => r.id == t.id)).map StandingRow.total_points).getD 0
    { id := t.id, swiss_pts := s, playoffs_pts := p
    , total_points := pyRound 2 (s + p) })).mergeSort overallDescLE

/-! Spec-side descriptions of the standings components (§4.6). -/

/-- Spec §4.6: `playerPts = Σ (fantasy_points + manual_pts)` over the roster. -/
def spec_playerPts (roster : List RosterPlayer) : ℚ :=
  (roster.map (fun p => p.fantasy_points + p.manual_pts)).sum

/-- Spec §4.6: `starBonus = Σ 0.5×(fantasy_points + manual_pts)` over the
roster entries flagged star. -/
def spec_starBonus (roster : List RosterPlayer) : ℚ :=
  ((roster.filter (fun p => p.is_star)).map
      (fun p => (p.fantasy_points + p.manual_pts) * 0.5)).sum

/-- Spec §4.6: followed-team points as a sum, +100 win/−75 loss for bo3,
+75 win/−50 loss for any other format (a non-"win" result is a loss). -/
def spec_followPts (followed : Option (List MatchResultRow)) : ℚ :=
  match followed with
  | none => 0
  | some results =>
    (results.map (fun r =>
        if r.format = "bo3" then (if r.result = "win" then (100 : ℚ) else -75)
        else (if r.result = "win" then 75 else -50))).sum

/-- Spec §4.6: `adjPts = Σ` manual team-level adjustments. -/
def spec_adjPts (adjs : List ℚ) : ℚ := adjs.sum

lemma rosterLoop_go (roster : List RosterPlayer) :
    ∀ a b : ℚ,
      roster.foldl
        (fun acc p =>
          let base_pts := p.fantasy_points + p.manual_pts
          (acc.1 + base_pts, if p.is_star then acc.2 + base_pts * 0.5 else acc.2))
        (a, b)
      = (a + spec_playerPts roster, b + spec_starBonus roster) := by
  induction roster with
  | nil => intro a b; simp [spec_playerPts, spec_starBonus]
  | cons p ps ih =>
    intro a b
    rcases hp : p.is_star with _ | _
    · simp only [List.foldl_cons, hp, Bool.false_eq_true, if_false, ih,
        spec_playerPts, spec_starBonus, List.map_cons, List.sum_cons,
        List.filter_cons, add_assoc]
    · simp only [List.foldl_cons, hp, if_true, ih, spec_playerPts, spec_starBonus,
        List.map_cons, List.sum_cons, List.filter_cons, List.map, List.sum_cons]
      exact Prod.ext (by ring) (by ring)

lemma rosterLoop_eq (roster : List RosterPlayer) :
    rosterLoop roster = (spec_playerPts roster, spec_starBonus roster) := by
  unfold rosterLoop
  rw [rosterLoop_go]
  simp

lemma followLoop_go (results : List MatchResultRow) :
    ∀ a : ℚ,
      results.foldl
        (fun pts r =>
          if r.result = "win" then pts + (if r.format = "bo3" then 100 else 75)
          else pts + (if r.format = "bo3" then -75 else -50))
        a
      = a + spec_followPts (some results) := by
  induction results with
  | nil => intro a; simp [spec_followPts]
  | cons r rs ih =>
    intro a
    simp only [List.foldl_cons, ih, spec_followPts, List.map_cons, List.sum_cons]
    by_cases hw : r.result = "win" <;> by_cases hf : r.format = "bo3" <;>
      simp only [hw, hf, if_true, if_false, String.reduceEq, ite_true, ite_false] <;>
      ring

lemma calculate_team_follow_points_eq (followed : Option (List MatchResultRow)) :
    calculate_team_follow_points followed = spec_followPts followed := by
  cases followed with
  | none => rfl
  | some results =>
    show results.foldl _ 0 = _
    rw [followLoop_go]
    simp

end FantasyVLR

namespace FantasyVLR

section StableSortLemmas

variable {α : Type} (f : α → ℚ)

lemma descLE_trans : ∀ a b c : α,
    (fun a b => decide (f b ≤ f a)) a b → (fun a b => decide (f b ≤ f a)) b c →
      (fun a b => decide (f b ≤ f a)) a c := by
  intro a b c h1 h2
  simp only [decide_eq_true_eq] at *
  exact le_trans h2 h1

lemma descLE_total : ∀ a b : α,
    ((fun a b => decide (f b ≤ f a)) a b || (fun a b => decide (f b ≤ f a)) b a) = true := by
  intro a b
  simp only [Bool.or_eq_true, decide_eq_true_eq]
  exact le_total (f b) (f a)

lemma pairwise_filter_of_pred (p : α → Bool) (R : α → α → Prop)
    (h : ∀ a b, p a = true → p b = true → R a b) (l : List α) :
    (l.filter p).Pairwise R := by
  induction l with
  | nil => simp
  | cons x xs ih =>
    by_cases hx : p x = true
    · rw [List.filter_cons_of_pos hx]
      exact List.Pairwise.cons (fun b hb => h x b hx (List.of_mem_filter hb)) ih
    · rw [List.filter_cons_of_neg (by simpa using hx)]
      exact ih

/-- A stable descending sort does not reorder elements whose sort key is
equal: filtering any key value out of the sorted list gives exactly the
filter of the input list. -/
lemma mergeSort_filter_key_eq (l : List α) (c : ℚ) :
    ((l.mergeSort (fun a b => decide (f b ≤ f a))).filter (fun x => f x == c))
      = l.filter (fun x => f x == c) := by
  set le : α → α → Bool := fun a b => decide (f b ≤ f a) with hle
  set p : α → Bool := fun x => f x == c with hp
  have hpair : (l.filter p).Pairwise (fun a b => le a b = true) := by
    refine pairwise_filter_of_pred p _ ?_ l
    intro a b ha hb
    have ha' : f a = c := by simpa [hp] using ha
    have hb' : f b = c := by simpa [hp] using hb
    simp [hle, ha', hb']
  have hsub : List.Sublist (l.filter p) (l.mergeSort le) :=
    List.sublist_mergeSort (descLE_trans f) (descLE_total f) hpair (List.filter_sublist l)
  have hself : (l.filter p).filter p = l.filter p :=
    List.filter_eq_self.mpr fun a ha => List.of_mem_filter ha
  have hsub2 : List.Sublist (l.filter p) ((l.mergeSort le).filter p) := by
    rw [← hself]
    exact hsub.filter p
  have hlen : ((l.mergeSort le).filter p).length = (l.filter p).length := by
    rw [← List.countP_eq_length_filter, ← List.countP_eq_length_filter]
    exact (List.mergeSort_perm l le).countP_eq p
  exact (hsub2.eq_of_length hlen.symm).symm

end StableSortLemmas

lemma phaseRow_id (phase : String) (t : FantasyTeam) : (phaseRow phase t).id = t.id := rfl

lemma find_phase_standings (teams : List FantasyTeam) (phase : String)
    (hid : (teams.map FantasyTeam.id).Nodup)
    (t : FantasyTeam) (ht : t ∈ teams) :
    (get_phase_standings teams phase).find? (fun r => r.id == t.id)
      = some (phaseRow phase t) := by
  have hidl : ((teams.map (phaseRow phase)).map StandingRow.id).Nodup := by
    rw [List.map_map]
    exact hid
  have hx : phaseRow phase t ∈ teams.map (phaseRow phase) :=
    List.mem_map_of_mem (phaseRow phase) ht
  have hperm : List.Perm (get_phase_standings teams phase) (teams.map (phaseRow phase)) :=
    List.mergeSort_perm _ standingsDescLE
  have hsome : ((get_phase_standings teams phase).find? (fun r => r.id == t.id)).isSome := by
    rw [List.find?_isSome]
    exact ⟨phaseRow phase t, hperm.mem_iff.mpr hx, by simp [phaseRow_id]⟩
  obtain ⟨y, hy⟩ := Option.isSome_iff_exists.mp hsome
  have hyp := List.find?_some hy
  have hymem : y ∈ teams.map (phaseRow phase) :=
    hperm.subset (List.mem_of_find?_eq_some hy)
  have hyx : y = phaseRow phase t := by
    refine List.inj_on_of_nodup_map hidl hymem hx ?_
    have h1 : y.id = t.id := by simpa using hyp
    rw [h1, phaseRow_id]
  rw [hy, hyx]

end FantasyVLR

namespace FantasyVLR

/-- The content of claim C4, over a league's teams: (1) every team's phase
total is `round(playerPts + starBonus + followPts + adjPts, 2)` with the four
components as the spec describes them; (2) phase standings are sorted
descending by total; (3) ties keep stable insertion order (filtering any total
value gives the teams in input order); (4) phase standings are a permutation
of the per-team rows; (5) the overall standings are exactly the per-team
recombinations `round(swiss total + playoffs total, 2)` (as a permutation of
the team list); (6) overall standings are sorted descending. -/
def standings_spec (teams : List FantasyTeam) : Prop :=
  (∀ phase : String, ∀ t ∈ teams,
      (phaseRow phase t).total_points
        = pyRound 2 (spec_playerPts (t.rosters phase) + spec_starBonus (t.rosters phase)
            + spec_followPts t.followed + spec_adjPts t.adjustments))
  ∧ (∀ phase : String,
      (get_phase_standings teams phase).Pairwise
        (fun a b => b.total_points ≤ a.total_points))
  ∧ (∀ phase : String, ∀ c : ℚ,
      (get_phase_standings teams phase).filter (fun r => r.total_points == c)
        = (teams.map (phaseRow phase)).filter (fun r => r.total_points == c))
  ∧ (∀ phase : String,
      List.Perm (get_phase_standings teams phase) (teams.map (phaseRow phase)))
  ∧ List.Perm (get_overall_standings teams)
      (teams.map (fun t =>
        { id := t.id
        , swiss_pts := (phaseRow "swiss" t).total_points
        , playoffs_pts := (phaseRow "playoffs" t).total_points
        , total_points := pyRound 2 ((phaseRow "swiss" t).total_points
            + (phaseRow "playoffs" t).total_points) }))
  ∧ (get_overall_standings teams).Pairwise
      (fun a b => b.total_points ≤ a.total_points)

/-- **C4.** For every league (teams with distinct ids) and phase, each team's
standings total is `round(playerPts + starBonus + followPts + adjPts, 2)`
(player points summing `fantasy_points + manual_pts` over the phase roster,
star bonus adding half of that for starred entries, follow points +100/−75
for bo3 wins/losses and +75/−50 otherwise, adjustment points summing the
manual adjustments); standings are sorted descending by total with ties in
stable insertion order; and each team's overall total is the recombination
`round(swiss total + playoffs total, 2)` of the two phase computations. -/
theorem standings_totals_sort_and_overall (teams : List FantasyTeam)
    (hid : (teams.map FantasyTeam.id).Nodup) :
    standings_spec teams := by
  refine ⟨?_, ?_, ?_, ?_, ?_, ?_⟩
  · intro phase t ht
    show pyRound 2 ((rosterLoop (t.rosters phase)).1 + (rosterLoop (t.rosters phase)).2
        + calculate_team_follow_points t.followed + get_total_adjustments t.adjustments) = _
    rw [rosterLoop_eq, calculate_team_follow_points_eq]
    rfl
  · intro phase
    have h := @List.sorted_mergeSort _ standingsDescLE
      (descLE_trans StandingRow.total_points) (descLE_total StandingRow.total_points)
      (teams.map (phaseRow phase))
    refine List.Pairwise.imp ?_ h
    intro a b hab
    simpa [standingsDescLE] using hab
  · intro phase c
    exact mergeSort_filter_key_eq StandingRow.total_points (teams.map (phaseRow phase)) c
  · intro phase
    exact List.mergeSort_perm _ standingsDescLE
  · have hmap : teams.map (fun t =>
        let s := (((get_phase_standings teams "swiss").find? (fun r => r.id == t.id)).map
            StandingRow.total_points).getD 0
        let p := (((get_phase_standings teams "playoffs").find? (fun r => r.id == t.id)).map
            StandingRow.total_points).getD 0
        ({ id := t.id, swiss_pts := s, playoffs_pts := p
         , total_points := pyRound 2 (s + p) } : OverallRow))
        = teams.map (fun t =>
          { id := t.id
          , swiss_pts := (phaseRow "swiss" t).total_points
          , playoffs_pts := (phaseRow "playoffs" t).total_points
          , total_points := pyRound 2 ((phaseRow "swiss" t).total_points
              + (phaseRow "playoffs" t).total_points) }) := by
      refine List.map_congr_left ?_
      intro t ht
      rw [find_phase_standings teams "swiss" hid t ht,
        find_phase_standings teams "playoffs" hid t ht]
      rfl
    show List.Perm ((teams.map _).mergeSort overallDescLE) _
    rw [hmap]
    exact List.mergeSort_perm _ overallDescLE
  · have h := @List.sorted_mergeSort _ overallDescLE
      (descLE_trans OverallRow.total_points) (descLE_total OverallRow.total_points)
      (teams.map (fun t =>
        let s := (((get_phase_standings teams "swiss").find? (fun r => r.id == t.id)).map
            StandingRow.total_points).getD 0
        let p := (((get_phase_standings teams "playoffs").find? (fun r => r.id == t.id)).map
            StandingRow.total_points).getD 0
        ({ id := t.id, swiss_pts := s, playoffs_pts := p
         , total_points := pyRound 2 (s + p) } : OverallRow)))
    refine List.Pairwise.imp ?_ h
    intro a b hab
    simpa [overallDescLE] using hab

end FantasyVLR

namespace FantasyVLR

/-- Concrete fantasy team: starred 100-point player plus a 50-point player on
the swiss roster, one bo3 win and one bo1 loss for the followed team, two
manual adjustments. -/
def wTeamA : FantasyTeam :=
  { id := 1
  , rosters := fun ph =>
      if ph = "swiss" then
        [ { fantasy_points := 100, manual_pts := 0, is_star := true }
        , { fantasy_points := 50, manual_pts := 2.5, is_star := false } ]
      else
        [ { fantasy_points := 80, manual_pts := 0, is_star := false } ]
  , followed := some [ { result := "win", format := "bo3" }
                     , { result := "loss", format := "bo1" } ]
  , adjustments := [10, -5] }

/-- Concrete fantasy team with empty rosters and no followed team. -/
def wTeamB : FantasyTeam :=
  { id := 2, rosters := fun _ => [], followed := none, adjustments := [] }

/-- Witness for `standings_totals_sort_and_overall` at a concrete two-team
league with distinct team ids. -/
theorem standings_totals_sort_and_overall_witness :
    ([wTeamA, wTeamB].map FantasyTeam.id).Nodup ∧ standings_spec [wTeamA, wTeamB] := by
  have hids : [wTeamA, wTeamB].map FantasyTeam.id = [1, 2] := rfl
  have hnd : ([wTeamA, wTeamB].map FantasyTeam.id).Nodup := by
    rw [hids]
    decide
  exact ⟨hnd, standings_totals_sort_and_overall _ hnd⟩

end FantasyVLR

namespace FantasyVLR

/-- One `fantasy_roster` row (`UNIQUE(fantasy_team_id, player_id, phase)`). -/
structure RosterEntry where
  fantasy_team_id : ℕ
  player_id : String
  tournament_id : ℕ
  role_slot : String
  phase : String
  is_star : Bool
  is_duplicate : Bool
deriving DecidableEq

/-- One `trades` row (the columns `resolve_trade` reads). -/
structure Trade where
  id : ℕ
  from_team_id : ℕ
  to_team_id : ℕ
  from_player_id : String
  to_player_id : String
  tournament_id : ℕ
  status : String
deriving DecidableEq

/-- `resolve_trade`'s first roster lookup:
`WHERE fantasy_team_id = from_team_id AND player_id = from_player_id`. -/
def fromPred (tr : Trade) (e : RosterEntry) : Bool :=
  e.fantasy_team_id == tr.from_team_id && e.player_id == tr.from_player_id

/-- `resolve_trade`'s second roster lookup:
`WHERE fantasy_team_id = to_team_id AND player_id = to_player_id`. -/
def toPred (tr : Trade) (e : RosterEntry) : Bool :=
  e.fantasy_team_id == tr.to_team_id && e.player_id == tr.to_player_id

/-- `database.resolve_trade(trade_id, action)`: returns the updated trades
table, the updated roster table, and the Python return value. A missing or
non-pending trade returns `false` and changes nothing. For `action =
"accepted"`, when both roster lookups succeed the two players' rows are
deleted and each player is re-inserted into the other's former
(team, role_slot, phase) cell (with default `is_star = is_duplicate = 0`);
when either lookup fails the roster is untouched. In every non-early-return
case the trade status is set to `action` and `true` is returned. -/
def resolve_trade (trades : List Trade) (roster : List RosterEntry)
    (trade_id : ℕ) (action : String) :
    List Trade × List RosterEntry × Bool :=
  match trades.find? (fun t => t.id == trade_id) with
  | none => (trades, roster, false)
  | some tr =>
    if tr.status ≠ "pending" then (trades, roster, false)
    else
      let roster' :=
        if action = "accepted" then
          match roster.find? (fromPred tr), roster.find? (toPred tr) with
          | some from_slot, some to_slot =>
            ((roster.filter (fun e => !(fromPred tr e))).filter
                (fun e => !(toPred tr e)))
              ++ [ { fantasy_team_id := tr.from_team_id
                   , player_id := tr.to_player_id
                   , tournament_id := tr.tournament_id
                   , role_slot := from_slot.role_slot
                   , phase := from_slot.phase
                   , is_star := false, is_duplicate := false }
                 , { fantasy_team_id := tr.to_team_id
                   , player_id := tr.from_player_id
                   , tournament_id := tr.tournament_id
                   , role_slot := to_slot.role_slot
                   , phase := to_slot.phase
                   , is_star := false, is_duplicate := false } ]
          | _, _ => roster
        else roster
      let trades' := trades.map
        (fun t => if t.id == trade_id then { t with status := action } else t)
      (trades', roster', true)

/-- A concrete pending trade: team 1 sends "alice" for team 2's "bob". -/
def cTrade : Trade :=
  { id := 1, from_team_id := 1, to_team_id := 2, from_player_id := "alice"
  , to_player_id := "bob", tournament_id := 7, status := "pending" }

/-- A roster on which `cTrade`'s destination player "bob" has no entry. -/
def cRoster : List RosterEntry :=
  [ { fantasy_team_id := 1, player_id := "alice", tournament_id := 7
    , role_slot := "duelist", phase := "swiss", is_star := false
    , is_duplicate := false } ]

/-- Counterexample to C5 as stated: accepting a pending trade whose
destination player has no roster entry leaves the roster unchanged, but the
acceptance is NOT reported as failed — `resolve_trade` returns `True` and
records the trade as accepted. -/
theorem trade_accept_missing_entry_reports_success :
    (resolve_trade [cTrade] cRoster 1 "accepted").2.1 = cRoster
    ∧ (resolve_trade [cTrade] cRoster 1 "accepted").2.2 = true
    ∧ (resolve_trade [cTrade] cRoster 1 "accepted").1
        = [{ cTrade with status := "accepted" }] := by
  refine ⟨?_, ?_, ?_⟩ <;> rfl

/-- **C5 (amended).** For a pending trade: if either traded player has no
roster entry on their side, acceptance leaves the roster completely unchanged
(no partial mutation) — but it is still reported as successful (`True` is
returned, and the trade status becomes the action) rather than failed; when
both roster entries exist, acceptance removes both players' rows and inserts
each player into the other's former (team, role_slot, phase) cell. -/
theorem trade_accept_atomic (trades : List Trade) (roster : List RosterEntry)
    (tid : ℕ) (tr : Trade)
    (hfind : trades.find? (fun t => t.id == tid) = some tr)
    (hpend : tr.status = "pending") :
    ((roster.find? (fromPred tr) = none ∨ roster.find? (toPred tr) = none) →
        (resolve_trade trades roster tid "accepted").2.1 = roster
        ∧ (resolve_trade trades roster tid "accepted").2.2 = true)
    ∧ (∀ fs ts, roster.find? (fromPred tr) = some fs →
        roster.find? (toPred tr) = some ts →
        (resolve_trade trades roster tid "accepted").2.1
          = ((roster.filter (fun e => !(fromPred tr e))).filter
              (fun e => !(toPred tr e)))
            ++ [ { fantasy_team_id := tr.from_team_id
                 , player_id := tr.to_player_id
                 , tournament_id := tr.tournament_id
                 , role_slot := fs.role_slot
                 , phase := fs.phase
                 , is_star := false, is_duplicate := false }
               , { fantasy_team_id := tr.to_team_id
                 , player_id := tr.from_player_id
                 , tournament_id := tr.tournament_id
                 , role_slot := ts.role_slot
                 , phase := ts.phase
                 , is_star := false, is_duplicate := false } ])
    ∧ (resolve_trade trades roster tid "accepted").1
        = trades.map (fun t => if t.id == tid then { t with status := "accepted" } else t) := by
  have hstat : (tr.status ≠ "pending") = False := by
    simp [hpend]
  refine ⟨?_, ?_, ?_⟩
  · intro hmiss
    unfold resolve_trade
    rw [hfind]
    simp only [hstat, reduceIte, String.reduceEq, ite_true, ite_false, if_false]
    rcases hmiss with hm | hm
    · rw [hm]
      cases roster.find? (toPred tr) <;> simp
    · rw [hm]
      cases roster.find? (fromPred tr) <;> simp
  · intro fs ts hfs hts
    unfold resolve_trade
    rw [hfind]
    simp only [hstat, reduceIte, String.reduceEq, ite_true, ite_false, if_false]
    rw [hfs, hts]
  · unfold resolve_trade
    rw [hfind]
    simp only [hstat, reduceIte, String.reduceEq, ite_true, ite_false, if_false]

end FantasyVLR

namespace FantasyVLR

/-- Witness for `trade_accept_atomic`: at the concrete state where "bob" has
no roster entry, acceptance leaves the roster unchanged and returns `True`. -/
theorem trade_accept_atomic_witness :
    ([cTrade].find? (fun t => t.id == 1) = some cTrade)
    ∧ cTrade.status = "pending"
    ∧ cRoster.find? (toPred cTrade) = none
    ∧ ((resolve_trade [cTrade] cRoster 1 "accepted").2.1 = cRoster
        ∧ (resolve_trade [cTrade] cRoster 1 "accepted").2.2 = true) := by
  refine ⟨rfl, rfl, rfl, ?_⟩
  exact (trade_accept_atomic [cTrade] cRoster 1 cTrade rfl rfl).1 (Or.inr rfl)

end FantasyVLR

namespace FantasyVLR

/-- `database.add_player_to_roster`: the `INSERT` succeeds unless the
`UNIQUE(fantasy_team_id, player_id, phase)` constraint fires
(`sqlite3.IntegrityError`), in which case nothing changes and `False` is
returned. -/
def add_player_to_roster (roster : List RosterEntry) (team : ℕ) (pid : String)
    (tid : ℕ) (slot phase : String) (dup : Bool) : List RosterEntry × Bool :=
  if roster.any (fun e =>
      e.fantasy_team_id == team && e.player_id == pid && e.phase == phase) then
    (roster, false)
  else
    (roster ++ [{ fantasy_team_id := team, player_id := pid, tournament_id := tid
                , role_slot := slot, phase := phase, is_star := false
                , is_duplicate := dup }], true)

/-- First `UPDATE` of `database.set_star_player` (also the whole body of
`clear_star_player`): `SET is_star=0 WHERE fantasy_team_id=? AND phase=?`. -/
def clearStarsUpdate (roster : List RosterEntry) (team : ℕ) (phase : String) :
    List RosterEntry :=
  roster.map (fun e =>
    if e.fantasy_team_id == team && e.phase == phase then
      { e with is_star := false }
    else e)

/-- Second `UPDATE` of `database.set_star_player`:
`SET is_star=1 WHERE fantasy_team_id=? AND player_id=? AND phase=?`. -/
def setStarUpdate (roster : List RosterEntry) (team : ℕ) (pid : String)
    (phase : String) : List RosterEntry :=
  roster.map (fun e =>
    if e.fantasy_team_id == team && e.player_id == pid && e.phase == phase then
      { e with is_star := true }
    else e)

/-- `database.set_star_player`: clear all stars for the team+phase, then set
the star on the named player's row; both updates commit in one transaction. -/
def set_star_player (roster : List RosterEntry) (team : ℕ) (pid : String)
    (phase : String) : List RosterEntry :=
  setStarUpdate (clearStarsUpdate roster team phase) team pid phase

/-- `database.clear_star_player`. -/
def clear_star_player (roster : List RosterEntry) (team : ℕ) (phase : String) :
    List RosterEntry :=
  clearStarsUpdate roster team phase

/-- `database.remove_player_from_roster` (phase-scoped or not). -/
def remove_player_from_roster (roster : List RosterEntry) (team : ℕ)
    (pid : String) (phase : Option String) : List RosterEntry :=
  match phase with
  | some ph => roster.filter (fun e =>
      !(e.fantasy_team_id == team && e.player_id == pid && e.phase == ph))
  | none => roster.filter (fun e =>
      !(e.fantasy_team_id == team && e.player_id == pid))

/-- The `UNIQUE(fantasy_team_id, player_id, phase)` key of a roster row. -/
def rosterKey (e : RosterEntry) : ℕ × String × String :=
  (e.fantasy_team_id, e.player_id, e.phase)

/-- Number of starred rows for one (team, phase) cell. -/
def starCount (roster : List RosterEntry) (team : ℕ) (phase : String) : ℕ :=
  roster.countP (fun e => e.fantasy_team_id == team && e.phase == phase && e.is_star)

/-- The star-uniqueness invariant: at most one starred roster row per
(fantasy team, phase). -/
def StarInvariant (roster : List RosterEntry) : Prop :=
  ∀ team phase, starCount roster team phase ≤ 1

end FantasyVLR

namespace FantasyVLR

lemma keyPred_iff (e : RosterEntry) (team : ℕ) (pid : String) (phase : String) :
    (e.fantasy_team_id == team && e.player_id == pid && e.phase == phase) = true
      ↔ rosterKey e = (team, pid, phase) := by
  simp [rosterKey, Prod.ext_iff, Bool.and_eq_true, beq_iff_eq, and_assoc]

lemma starCount_clearStars (roster : List RosterEntry) (team : ℕ) (phase : String)
    (t' : ℕ) (p' : String) :
    starCount (clearStarsUpdate roster team phase) t' p'
      = if t' = team ∧ p' = phase then 0 else starCount roster t' p' := by
  unfold starCount clearStarsUpdate
  rw [List.countP_map]
  by_cases h : t' = team ∧ p' = phase
  · rw [if_pos h]
    obtain ⟨rfl, rfl⟩ := h
    rw [List.countP_eq_zero]
    intro e he
    by_cases hm : (e.fantasy_team_id == t' && e.phase == p') = true
    · simp [Function.comp, hm]
    · simp only [Function.comp, hm, if_false, Bool.if_false_right, ite_false]
      simp only [Bool.and_eq_true, beq_iff_eq] at hm ⊢
      tauto
  · rw [if_neg h]
    apply List.countP_congr
    intro e he
    by_cases hm : (e.fantasy_team_id == team && e.phase == phase) = true
    · simp only [Function.comp, hm, ite_true]
      simp only [Bool.and_eq_true, beq_iff_eq] at hm ⊢
      constructor
      · rintro ⟨-, hfalse⟩
        simp at hfalse
      · rintro ⟨⟨h1, h2⟩, -⟩
        exact absurd ⟨h1.symm.trans hm.1, h2.symm.trans hm.2⟩ h
    · simp [Function.comp, hm]

end FantasyVLR

namespace FantasyVLR


lemma clearStars_countP_key (roster : List RosterEntry) (team : ℕ) (phase : String)
    (t2 : ℕ) (pid2 : String) (p2 : String) :
    (clearStarsUpdate roster team phase).countP
        (fun e => e.fantasy_team_id == t2 && e.player_id == pid2 && e.phase == p2)
      = roster.countP
        (fun e => e.fantasy_team_id == t2 && e.player_id == pid2 && e.phase == p2) := by
  unfold clearStarsUpdate
  rw [List.countP_map]
  apply List.countP_congr
  intro e he
  by_cases hm : (e.fantasy_team_id == team && e.phase == phase) = true
  · simp [Function.comp, hm]
  · simp [Function.comp, hm]

lemma starCount_setStar_other (roster : List RosterEntry) (team : ℕ) (pid : String)
    (phase : String) (t' : ℕ) (p' : String) (h : ¬(t' = team ∧ p' = phase)) :
    starCount (setStarUpdate roster team pid phase) t' p' = starCount roster t' p' := by
  unfold starCount setStarUpdate
  rw [List.countP_map]
  apply List.countP_congr
  intro e he
  by_cases hm : (e.fantasy_team_id == team && e.player_id == pid && e.phase == phase) = true
  · have hk := (keyPred_iff e team pid phase).mp hm
    have h1 : e.fantasy_team_id = team := congrArg Prod.fst hk
    have h3 : e.phase = phase := congrArg (fun x => x.2.2) hk
    have hL : (e.fantasy_team_id == t' && e.phase == p') = false := by
      apply Bool.eq_false_iff.mpr
      intro hx
      simp only [Bool.and_eq_true, beq_iff_eq] at hx
      exact h ⟨hx.1.symm.trans h1, hx.2.symm.trans h3⟩
    simp only [Function.comp, hm, ite_true, Bool.and_true]
    rw [hL]
    simp
  · simp [Function.comp, hm]

lemma starCount_setStar_main (roster : List RosterEntry) (team : ℕ) (pid : String)
    (phase : String)
    (hclear : ∀ e ∈ roster,
      ¬((e.fantasy_team_id == team && e.phase == phase && e.is_star) = true)) :
    starCount (setStarUpdate roster team pid phase) team phase
      = roster.countP
          (fun e => e.fantasy_team_id == team && e.player_id == pid && e.phase == phase) := by
  unfold starCount setStarUpdate
  rw [List.countP_map]
  apply List.countP_congr
  intro e he
  by_cases hm : (e.fantasy_team_id == team && e.player_id == pid && e.phase == phase) = true
  · have hk := (keyPred_iff e team pid phase).mp hm
    have h1 : e.fantasy_team_id = team := congrArg Prod.fst hk
    have h3 : e.phase = phase := congrArg (fun x => x.2.2) hk
    have hL : (e.fantasy_team_id == team && e.phase == phase) = true := by
      simp [beq_iff_eq, h1, h3]
    simp only [Function.comp, hm, ite_true, Bool.and_true]
    rw [hL]
    simp
  · have hLf : (e.fantasy_team_id == team && e.phase == phase && e.is_star) = false :=
      Bool.eq_false_iff.mpr (hclear e he)
    have hRf : (e.fantasy_team_id == team && e.player_id == pid && e.phase == phase) = false :=
      Bool.eq_false_iff.mpr hm
    simp only [Function.comp, hm, Bool.false_eq_true, if_false, ite_false]
    rw [hLf]
    simp

lemma countP_key_le_one (roster : List RosterEntry)
    (hkeys : (roster.map rosterKey).Nodup) (team : ℕ) (pid : String) (phase : String) :
    roster.countP
        (fun e => e.fantasy_team_id == team && e.player_id == pid && e.phase == phase)
      ≤ 1 := by
  induction roster with
  | nil => simp
  | cons e es ih =>
    rw [List.map_cons, List.nodup_cons] at hkeys
    by_cases hm : (e.fantasy_team_id == team && e.player_id == pid && e.phase == phase) = true
    · have hzero : es.countP
          (fun x => x.fantasy_team_id == team && x.player_id == pid && x.phase == phase) = 0 := by
        rw [List.countP_eq_zero]
        intro x hx hpx
        have hk1 : rosterKey e = (team, pid, phase) := (keyPred_iff e team pid phase).mp hm
        have hk2 : rosterKey x = (team, pid, phase) := (keyPred_iff x team pid phase).mp hpx
        have hmem : rosterKey e ∈ List.map rosterKey es := by
          rw [hk1.trans hk2.symm]
          exact List.mem_map_of_mem rosterKey hx
        exact hkeys.1 hmem
      simp [List.countP_cons, hm, hzero]
    · simp only [List.countP_cons, hm, ite_false, add_zero, if_false]
      exact ih hkeys.2

end FantasyVLR

namespace FantasyVLR

lemma starCount_append (l1 l2 : List RosterEntry) (t : ℕ) (p : String) :
    starCount (l1 ++ l2) t p = starCount l1 t p + starCount l2 t p := by
  simp [starCount]

lemma starInv_resolve_trade (trades : List Trade) (roster : List RosterEntry)
    (tid : ℕ) (action : String) (hinv : StarInvariant roster) :
    StarInvariant ((resolve_trade trades roster tid action).2.1) := by
  unfold resolve_trade
  cases hf : trades.find? (fun t => t.id == tid) with
  | none => exact hinv
  | some tr =>
    dsimp only
    by_cases hst : tr.status = "pending"
    · rw [if_neg (fun hc => hc hst)]
      dsimp only
      by_cases hac : action = "accepted"
      · rw [if_pos hac]
        cases hfrom : roster.find? (fromPred tr) with
        | none =>
          cases hto : roster.find? (toPred tr) with
          | none => exact hinv
          | some ts => exact hinv
        | some fs =>
          cases hto : roster.find? (toPred tr) with
          | none => exact hinv
          | some ts =>
            dsimp only
            intro t p
            rw [starCount_append]
            have hzero : starCount
                [ { fantasy_team_id := tr.from_team_id
                  , player_id := tr.to_player_id
                  , tournament_id := tr.tournament_id
                  , role_slot := fs.role_slot
                  , phase := fs.phase
                  , is_star := false, is_duplicate := false }
                , { fantasy_team_id := tr.to_team_id
                  , player_id := tr.from_player_id
                  , tournament_id := tr.tournament_id
                  , role_slot := ts.role_slot
                  , phase := ts.phase
                  , is_star := false, is_duplicate := false } ] t p = 0 := by
              simp [starCount]
            rw [hzero, add_zero]
            have hsub : List.Sublist ((roster.filter (fun e => !(fromPred tr e))).filter
                (fun e => !(toPred tr e))) roster :=
              (List.filter_sublist _).trans (List.filter_sublist _)
            exact le_trans (hsub.countP_le _) (hinv t p)
      · rw [if_neg hac]
        exact hinv
    · rw [if_pos (by simpa using hst)]
      exact hinv

end FantasyVLR

namespace FantasyVLR

/-- **C8.** At most one roster entry per (fantasy team, phase) carries the
star flag: assuming the invariant, it is preserved by roster insertion,
removal, star clearing, star setting and trade resolution; `set_star_player`
first clears every star for the team+phase (the intermediate state of its
transaction has zero stars for that cell, so no state with two stars ever
exists, committed or transient) and then — on a roster whose
`UNIQUE(fantasy_team_id, player_id, phase)` key holds and which contains the
player's row — sets exactly one. -/
theorem star_flag_unique_per_team_phase
    (roster : List RosterEntry) (team : ℕ) (pid : String) (tid : ℕ)
    (slot phase : String) (dup : Bool) (phOpt : Option String)
    (trades : List Trade) (trade_id : ℕ) (action : String)
    (hinv : StarInvariant roster) :
    StarInvariant (add_player_to_roster roster team pid tid slot phase dup).1
    ∧ StarInvariant (remove_player_from_roster roster team pid phOpt)
    ∧ StarInvariant (clear_star_player roster team phase)
    ∧ starCount (clear_star_player roster team phase) team phase = 0
    ∧ ((roster.map rosterKey).Nodup →
        StarInvariant (set_star_player roster team pid phase))
    ∧ ((roster.map rosterKey).Nodup →
        (∃ e ∈ roster, rosterKey e = (team, pid, phase)) →
        starCount (set_star_player roster team pid phase) team phase = 1)
    ∧ StarInvariant ((resolve_trade trades roster trade_id action).2.1) := by
  have hclear0 : ∀ t' p', starCount (clearStarsUpdate roster team phase) t' p' ≤ 1 := by
    intro t' p'
    rw [starCount_clearStars]
    by_cases h : t' = team ∧ p' = phase
    · rw [if_pos h]
      norm_num
    · rw [if_neg h]
      exact hinv t' p'
  have hclearMain : starCount (clearStarsUpdate roster team phase) team phase = 0 := by
    rw [starCount_clearStars, if_pos ⟨rfl, rfl⟩]
  refine ⟨?_, ?_, hclear0, hclearMain, ?_, ?_, ?_⟩
  · unfold add_player_to_roster
    by_cases h : roster.any (fun e =>
        e.fantasy_team_id == team && e.player_id == pid && e.phase == phase) = true
    · rw [if_pos h]
      exact hinv
    · rw [if_neg h]
      intro t' p'
      show starCount (roster ++ _) t' p' ≤ 1
      rw [starCount_append]
      have hnew : starCount
          [{ fantasy_team_id := team, player_id := pid, tournament_id := tid
           , role_slot := slot, phase := phase, is_star := false
           , is_duplicate := dup }] t' p' = 0 := by
        simp [starCount]
      rw [hnew, add_zero]
      exact hinv t' p'
  · unfold remove_player_from_roster
    cases phOpt with
    | none =>
      intro t' p'
      exact le_trans ((List.filter_sublist _).countP_le _) (hinv t' p')
    | some ph =>
      intro t' p'
      exact le_trans ((List.filter_sublist _).countP_le _) (hinv t' p')
  · intro hkeys t' p'
    unfold set_star_player
    by_cases h : t' = team ∧ p' = phase
    · obtain ⟨rfl, rfl⟩ := h
      rw [starCount_setStar_main _ _ _ _ (by
        intro e he
        have := List.countP_eq_zero.mp hclearMain e he
        simpa using this)]
      rw [clearStars_countP_key]
      exact countP_key_le_one roster hkeys t' pid p'
    · rw [starCount_setStar_other _ _ _ _ _ _ h]
      exact hclear0 t' p'
  · intro hkeys hmem
    unfold set_star_player
    rw [starCount_setStar_main _ _ _ _ (by
      intro e he
      have := List.countP_eq_zero.mp hclearMain e he
      simpa using this)]
    rw [clearStars_countP_key]
    obtain ⟨e, he, hke⟩ := hmem
    have hpos : 0 < roster.countP
        (fun e => e.fantasy_team_id == team && e.player_id == pid && e.phase == phase) := by
      rw [List.countP_pos_iff]
      exact ⟨e, he, (keyPred_iff e team pid phase).mpr hke⟩
    have hle := countP_key_le_one roster hkeys team pid phase
    omega
  · exact starInv_resolve_trade trades roster trade_id action hinv

end FantasyVLR

namespace FantasyVLR

/-- Concrete roster row: team 1's starred player. -/
def wEntry1 : RosterEntry :=
  { fantasy_team_id := 1, player_id := "alice", tournament_id := 7
  , role_slot := "duelist", phase := "swiss", is_star := true
  , is_duplicate := false }

/-- Concrete roster row: team 1's second, unstarred player. -/
def wEntry2 : RosterEntry :=
  { fantasy_team_id := 1, player_id := "bob", tournament_id := 7
  , role_slot := "sentinel", phase := "swiss", is_star := false
  , is_duplicate := false }

/-- A concrete two-row roster satisfying the star invariant. -/
def wRoster : List RosterEntry := [wEntry1, wEntry2]

/-- Witness for `star_flag_unique_per_team_phase`: on a concrete valid roster,
moving the star from "alice" to "bob" keeps the invariant and leaves exactly
one star for (team 1, swiss). -/
theorem star_flag_unique_per_team_phase_witness :
    StarInvariant wRoster
    ∧ (wRoster.map rosterKey).Nodup
    ∧ (∃ e ∈ wRoster, rosterKey e = (1, "bob", "swiss"))
    ∧ StarInvariant (set_star_player wRoster 1 "bob" "swiss")
    ∧ starCount (set_star_player wRoster 1 "bob" "swiss") 1 "swiss" = 1 := by
  have hinvW : StarInvariant wRoster := by
    intro t p
    show List.countP _ [wEntry1, wEntry2] ≤ 1
    rw [List.countP_cons, List.countP_cons, List.countP_nil]
    have h2 : (wEntry2.fantasy_team_id == t && wEntry2.phase == p && wEntry2.is_star) = false := by
      simp [wEntry2]
    rw [h2]
    split_ifs <;> simp_all
  have hnodup : (wRoster.map rosterKey).Nodup := by decide
  have hmem : ∃ e ∈ wRoster, rosterKey e = (1, "bob", "swiss") :=
    ⟨wEntry2, by simp [wRoster], rfl⟩
  have h := star_flag_unique_per_team_phase wRoster 1 "bob" 7 "sentinel" "swiss" false
    none [] 0 "accepted" hinvW
  exact ⟨hinvW, hnodup, hmem, h.2.2.2.2.1 hnodup, h.2.2.2.2.2.1 hnodup hmem⟩

end FantasyVLR

namespace FantasyVLR

/-- The `while len(snake) < total_players * n` loop of
`database.create_draft_session`, with explicit fuel: each iteration appends
the forward or backward index list depending on the round parity. Every
iteration appends `n ≥ 1` indices, so `target` units of fuel always suffice
(and `create_snake_order` passes exactly that). -/
def snakeLoop (fwd bwd : List ℕ) (target : ℕ) : ℕ → ℕ → List ℕ → List ℕ
  | 0, _, acc => acc
  | fuel + 1, round_num, acc =>
    if acc.length < target then
      snakeLoop fwd bwd target fuel (round_num + 1)
        (acc ++ (if round_num % 2 = 0 then fwd else bwd))
    else acc

/-- `database.create_draft_session`'s snake-order construction over team
indices: `forward = range n`, `backward = reversed`, loop, then
`snake[:total_players * n]`. -/
def create_snake_order (n total_players : ℕ) : List ℕ :=
  let forward := List.range n
  let backward := (List.range n).reverse
  (snakeLoop forward backward (total_players * n) (total_players * n) 0 []).take
    (total_players * n)

/-- One `draft_sessions` row (the columns the draft logic reads). -/
structure DraftSession where
  current_pick : ℕ
  total_picks : ℕ
  status : String
  snake_order : List ℕ
deriving DecidableEq

/-- `database.create_draft_session`: snake order over team indices mapped to
team ids, `total_picks = total_players * n`, status "active", pick cursor 1. -/
def create_draft_session (team_ids : List ℕ) (total_players : ℕ) : DraftSession :=
  let n := team_ids.length
  let snake := create_snake_order n total_players
  { current_pick := 1
  , total_picks := total_players * n
  , status := "active"
  , snake_order := snake.map (fun i => team_ids.getD i 0) }

/-- `database.advance_draft`: increment the pick cursor; when the new pick
number exceeds `total_picks`, also set the status to "complete". -/
def advance_draft (s : DraftSession) : DraftSession :=
  let new_pick := s.current_pick + 1
  if new_pick > s.total_picks then
    { s with status := "complete", current_pick := new_pick }
  else
    { s with current_pick := new_pick }

/-- `database.get_current_drafter`: `snake_order[current_pick - 1]`, or `None`
past the end. -/
def get_current_drafter (s : DraftSession) : Option ℕ :=
  let idx := s.current_pick - 1
  if s.snake_order.length ≤ idx then none
  else s.snake_order.get? idx

/-- Spec §4.7: the snake order is the repeating sequence forward, backward,
forward, backward, ... (each repetition of length `n`) truncated to exactly
`total_players * n` picks. -/
def spec_snakeOrder (n total_players : ℕ) : List ℕ :=
  (((List.range total_players).map
      (fun r => if r % 2 = 0 then List.range n else (List.range n).reverse)).flatten).take
    (total_players * n)

lemma snakeLoop_spec (n tp : ℕ) (hn : 1 ≤ n) :
    ∀ (fuel r : ℕ) (acc : List ℕ), acc.length = r * n → tp ≤ r + fuel →
      snakeLoop (List.range n) ((List.range n).reverse) (tp * n) fuel r acc
        = acc ++ (((List.range' r (tp - r)).map
            (fun k => if k % 2 = 0 then List.range n else (List.range n).reverse)).flatten) := by
  intro fuel
  induction fuel with
  | zero =>
    intro r acc hlen hfr
    have h0 : tp - r = 0 := by omega
    simp [snakeLoop, h0]
  | succ fuel ih =>
    intro r acc hlen hfr
    by_cases hr : r < tp
    · have hlt : acc.length < tp * n := by
        rw [hlen]
        exact Nat.mul_lt_mul_of_lt_of_le hr (le_refl n) (by omega)
      rw [snakeLoop, if_pos hlt]
      have hlen' : (acc ++ (if r % 2 = 0 then List.range n else (List.range n).reverse)).length
          = (r + 1) * n := by
        rw [List.length_append, hlen]
        by_cases hpar : r % 2 = 0
        · simp [hpar, Nat.succ_mul]
        · simp [hpar, Nat.succ_mul]
      rw [ih (r + 1) _ hlen' (by omega)]
      have hrange : List.range' r (tp - r) = r :: List.range' (r + 1) (tp - r - 1) := by
        have h1 : tp - r = (tp - r - 1) + 1 := by omega
        have h2 : tp - r - 1 + 1 - 1 = tp - r - 1 := by omega
        rw [h1, List.range'_succ, h2]
      rw [hrange]
      have h3 : tp - (r + 1) = tp - r - 1 := by omega
      rw [h3]
      simp [List.flatten_cons, List.append_assoc]
    · have hge : ¬(acc.length < tp * n) := by
        rw [hlen]
        push_neg
        exact Nat.mul_le_mul_right n (by omega)
      rw [snakeLoop, if_neg hge]
      have h0 : tp - r = 0 := by omega
      simp [h0]

/-- The loop output equals the spec's flattened alternating sequence. -/
lemma create_snake_order_eq_spec (n tp : ℕ) (hn : 1 ≤ n) :
    create_snake_order n tp = spec_snakeOrder n tp := by
  unfold create_snake_order spec_snakeOrder
  dsimp only
  rw [snakeLoop_spec n tp hn (tp * n) 0 [] (by simp) (show tp ≤ 0 + tp * n by
    have h := Nat.mul_le_mul_left tp hn
    omega)]
  simp [List.range_eq_range']

end FantasyVLR

namespace FantasyVLR

/-- **C9.** For a league with `n ≥ 1` teams and ruleset value `total_players`,
the draft's snake order is the repeating forward/backward sequence of team
indices truncated to exactly `total_players * n` picks (so 3 teams with
`total_players = 2` pick in order T1,T2,T3,T3,T2,T1); `total_picks` is
`total_players * n`; the current picker is `snake_order[current_pick - 1]`
(None past the end); advancing increments `current_pick` and sets the status
to "complete" exactly when the new pick number exceeds `total_picks`. -/
theorem snake_draft_order (n tp : ℕ) (team_ids : List ℕ) (s : DraftSession)
    (hn : 1 ≤ n) :
    create_snake_order n tp = spec_snakeOrder n tp
    ∧ (create_draft_session team_ids tp).total_picks = tp * team_ids.length
    ∧ (create_draft_session team_ids tp).status = "active"
    ∧ (create_draft_session team_ids tp).current_pick = 1
    ∧ (1 ≤ team_ids.length →
        (create_draft_session team_ids tp).snake_order
          = (spec_snakeOrder team_ids.length tp).map (fun i => team_ids.getD i 0))
    ∧ (s.current_pick - 1 < s.snake_order.length →
        get_current_drafter s = s.snake_order.get? (s.current_pick - 1))
    ∧ (s.snake_order.length ≤ s.current_pick - 1 → get_current_drafter s = none)
    ∧ (advance_draft s).current_pick = s.current_pick + 1
    ∧ (s.current_pick + 1 > s.total_picks → (advance_draft s).status = "complete")
    ∧ (¬(s.current_pick + 1 > s.total_picks) → (advance_draft s).status = s.status)
    ∧ (create_draft_session [10, 20, 30] 2).snake_order = [10, 20, 30, 30, 20, 10] := by
  refine ⟨create_snake_order_eq_spec n tp hn, rfl, rfl, rfl, ?_, ?_, ?_, ?_, ?_, ?_, ?_⟩
  · intro hlen
    show (create_snake_order team_ids.length tp).map _ = _
    rw [create_snake_order_eq_spec team_ids.length tp hlen]
  · intro hidx
    unfold get_current_drafter
    rw [if_neg (not_le.mpr hidx)]
  · intro hidx
    unfold get_current_drafter
    rw [if_pos hidx]
  · unfold advance_draft
    by_cases h : s.current_pick + 1 > s.total_picks
    · rw [if_pos h]
    · rw [if_neg h]
  · intro h
    unfold advance_draft
    rw [if_pos h]
  · intro h
    unfold advance_draft
    rw [if_neg h]
  · decide

/-- Witness for `snake_draft_order`: 3 teams, `total_players = 2`, and a
session mid-draft where the picker index is in range. -/
theorem snake_draft_order_witness :
    (1 ≤ 3)
    ∧ create_snake_order 3 2 = spec_snakeOrder 3 2
    ∧ ((⟨3, 6, "active", [10, 20, 30, 30, 20, 10]⟩ : DraftSession).current_pick - 1
        < ([10, 20, 30, 30, 20, 10] : List ℕ).length)
    ∧ get_current_drafter ⟨3, 6, "active", [10, 20, 30, 30, 20, 10]⟩ = some 30 := by
  have h := snake_draft_order 3 2 [10, 20, 30]
    ⟨3, 6, "active", [10, 20, 30, 30, 20, 10]⟩ (by decide)
  refine ⟨by decide, h.1, by decide, ?_⟩
  have h2 := h.2.2.2.2.2.1 (by decide)
  rw [h2]
  decide

end FantasyVLR

namespace FantasyVLR

/-- One `players` (leaderboard) row: identity key plus the columns the stub
logic inspects or that distinguish a real row from a zero-stat stub. -/
structure LeaderboardRow where
  player_id : String
  tournament_id : ℕ
  ign : String
  matches_played : ℕ
  base_points : ℚ
  role_points : ℚ
  fantasy_points : ℚ
deriving DecidableEq

/-- `database.upsert_player`:
`INSERT ... ON CONFLICT(player_id, tournament_id) DO UPDATE SET ...` —
replaces the data of the row with the same key if one exists, else appends. -/
def upsert_player (db : List LeaderboardRow) (row : LeaderboardRow) :
    List LeaderboardRow :=
  if db.any (fun r =>
      r.player_id == row.player_id && r.tournament_id == row.tournament_id) then
    db.map (fun r =>
      if r.player_id == row.player_id && r.tournament_id == row.tournament_id then
        row
      else r)
  else db ++ [row]

/-- The zero-stat stub registration step used by both
`scraper.scrape_event_rosters._register` and the upcoming-match branch of
`scraper.scrape_source`: look the (player_id, tournament_id) row up
(`SELECT fantasy_points FROM players WHERE player_id=? AND tournament_id=?`)
and call `upsert_player(stub)` only when `existing is None`. -/
def register_stub (db : List LeaderboardRow) (stub : LeaderboardRow) :
    List LeaderboardRow :=
  match db.find? (fun r =>
      r.player_id == stub.player_id && r.tournament_id == stub.tournament_id) with
  | some _ => db
  | none => upsert_player db stub

/-- **C10.** Registering a zero-stat stub never modifies an existing
leaderboard row: if any row with the stub's (player_id, tournament_id) key
exists — whatever its points — the database is returned unchanged; a stub is
appended only when no row with that key exists at all; and every pre-existing
row survives stub registration unchanged. -/
theorem stub_registration_never_overwrites (db : List LeaderboardRow)
    (stub : LeaderboardRow) :
    ((∃ r ∈ db, r.player_id = stub.player_id ∧ r.tournament_id = stub.tournament_id) →
        register_stub db stub = db)
    ∧ ((¬∃ r ∈ db, r.player_id = stub.player_id ∧ r.tournament_id = stub.tournament_id) →
        register_stub db stub = db ++ [stub])
    ∧ (∀ r ∈ db, r ∈ register_stub db stub) := by
  refine ⟨?_, ?_, ?_⟩
  · intro hex
    unfold register_stub
    cases hf : db.find? (fun r =>
        r.player_id == stub.player_id && r.tournament_id == stub.tournament_id) with
    | some r => rfl
    | none =>
      exfalso
      obtain ⟨r, hr, h1, h2⟩ := hex
      have hnone := List.find?_eq_none.mp hf r hr
      simp [h1, h2] at hnone
  · intro hnex
    have hf : db.find? (fun r =>
        r.player_id == stub.player_id && r.tournament_id == stub.tournament_id) = none := by
      rw [List.find?_eq_none]
      intro r hr hpred
      simp only [Bool.and_eq_true, beq_iff_eq] at hpred
      exact hnex ⟨r, hr, hpred.1, hpred.2⟩
    unfold register_stub
    rw [hf]
    unfold upsert_player
    rw [if_neg]
    intro hany
    obtain ⟨r, hr, hpred⟩ := List.any_eq_true.mp hany
    simp only [Bool.and_eq_true, beq_iff_eq] at hpred
    exact hnex ⟨r, hr, hpred.1, hpred.2⟩
  · intro r hr
    unfold register_stub
    cases hf : db.find? (fun r =>
        r.player_id == stub.player_id && r.tournament_id == stub.tournament_id) with
    | some x => exact hr
    | none =>
      unfold upsert_player
      by_cases hany : db.any (fun r =>
          r.player_id == stub.player_id && r.tournament_id == stub.tournament_id) = true
      · exfalso
        obtain ⟨x, hx, hpred⟩ := List.any_eq_true.mp hany
        have hnone := List.find?_eq_none.mp hf x hx
        exact hnone hpred
      · rw [if_neg hany]
        exact List.mem_append_left _ hr

/-- A real leaderboard row with nonzero fantasy points. -/
def wDbRow : LeaderboardRow :=
  { player_id := "p1", tournament_id := 3, ign := "Ace", matches_played := 5
  , base_points := 400.25, role_points := 80.5, fantasy_points := 480.75 }

/-- A zero-stat stub with the same key as `wDbRow`. -/
def wStub : LeaderboardRow :=
  { player_id := "p1", tournament_id := 3, ign := "Ace", matches_played := 0
  , base_points := 0, role_points := 0, fantasy_points := 0 }

/-- A zero-stat stub with a fresh key. -/
def wStub2 : LeaderboardRow :=
  { player_id := "p2", tournament_id := 3, ign := "Bee", matches_played := 0
  , base_points := 0, role_points := 0, fantasy_points := 0 }

/-- Witness for `stub_registration_never_overwrites`: the row with nonzero
points is left untouched by a stub with the same key, and a fresh-key stub is
appended. -/
theorem stub_registration_never_overwrites_witness :
    (∃ r ∈ [wDbRow], r.player_id = wStub.player_id ∧ r.tournament_id = wStub.tournament_id)
    ∧ register_stub [wDbRow] wStub = [wDbRow]
    ∧ (¬∃ r ∈ [wDbRow], r.player_id = wStub2.player_id ∧ r.tournament_id = wStub2.tournament_id)
    ∧ register_stub [wDbRow] wStub2 = [wDbRow] ++ [wStub2] := by
  have hex : ∃ r ∈ [wDbRow], r.player_id = wStub.player_id ∧ r.tournament_id = wStub.tournament_id :=
    ⟨wDbRow, by simp, rfl, rfl⟩
  have hnex : ¬∃ r ∈ [wDbRow],
      r.player_id = wStub2.player_id ∧ r.tournament_id = wStub2.tournament_id := by
    rintro ⟨r, hr, h1, h2⟩
    simp only [List.mem_singleton] at hr
    subst hr
    exact absurd h1 (by simp [wDbRow, wStub2])
  exact ⟨hex, (stub_registration_never_overwrites [wDbRow] wStub).1 hex,
    hnex, (stub_registration_never_overwrites [wDbRow] wStub2).2.1 hnex⟩

end FantasyVLR
